import Mathlib

/-!
Verification development for the Trigger Fix tool (scripts/core.py).

The numeric routines of the source operate on Python floats; they are
embedded here over an arbitrary linear ordered field (instantiated at `ℚ`
for concrete evaluation and at `ℝ` for the geometric pipeline), the usual
exact-arithmetic idealisation of float code.  Python `int()` truncation,
`round()` (banker's rounding), `//` and `%` on integers (floor division),
and `np.median` (sort, middle element or mean of the two middle elements)
are modelled explicitly.  `haversine_distance` is embedded over `ℝ` with
`Real.sin`, `Real.cos`, `Real.arcsin` and `Real.sqrt`.
-/

namespace TriggerFix

section Numeric

variable {α : Type*} [LinearOrderedField α]

/-- `TriggerFixer.dms_to_decimal` (core.py lines 24-26):
degrees, minutes, seconds to decimal degrees, `d + m / 60 + s / 3600`. -/
def dms_to_decimal (d m s : α) : α :=
  d + m / 60 + s / 3600

/-- `gps_to_datetime` (core.py lines 19-22): GPS week and seconds to a
timestamp, `gps_epoch + timedelta(weeks=week, seconds=seconds)`.  A
timestamp is modelled as its offset in seconds on the time axis, so the
result is `epoch + week * 7 * 86400 + seconds`. -/
def gps_to_datetime (epoch : α) (week : ℤ) (seconds : α) : α :=
  epoch + (week : α) * 604800 + seconds

variable [FloorRing α]

/-- Python `int(x)` on a float: truncation toward zero. -/
def pyTrunc (x : α) : ℤ :=
  if 0 ≤ x then ⌊x⌋ else ⌈x⌉

/-- `TriggerFixer._decimal_to_dms` (core.py lines 177-184):
`d = int(decimal)`, `m = int((decimal - d) * 60)`,
`s = ((decimal - d) * 60 - m) * 60`. -/
def decimal_to_dms (decimal : α) : ℤ × ℤ × α :=
  let d := pyTrunc decimal
  let m_float := (decimal - (d : α)) * 60
  let m := pyTrunc m_float
  (d, m, (m_float - (m : α)) * 60)

/-- `TriggerFixer._datetime_to_gps` (core.py lines 162-175):
`delta = dt - gps_epoch`; `gps_week = delta.days // 7`;
`seconds_of_week = (delta.days % 7) * 86400 + delta.seconds +
delta.microseconds / 1e6`.  `delta.days` is `⌊delta / 86400⌋` and the
remaining seconds-of-day (`delta.seconds + delta.microseconds / 1e6`) are
`delta - days * 86400`; Python `//` and `%` on integers are `Int.fdiv` and
`Int.fmod`. -/
def datetime_to_gps (epoch : α) (dt : α) : ℤ × α :=
  let delta := dt - epoch
  let days := ⌊delta / 86400⌋
  let rem := delta - (days : α) * 86400
  (Int.fdiv days 7, ((Int.fmod days 7 : ℤ) : α) * 86400 + rem)

/-- Python `round(x)` on a float: round half to even, as an integer. -/
def pyRound (x : α) : ℤ :=
  if x - (⌊x⌋ : α) < 1 / 2 then ⌊x⌋
  else if (1 / 2 : α) < x - (⌊x⌋ : α) then ⌊x⌋ + 1
  else if ⌊x⌋ % 2 = 0 then ⌊x⌋ else ⌊x⌋ + 1

/-- `np.median` (used at core.py line 420): sort ascending; for odd length
take the middle element, for even length the mean of the two middle
elements.  (The source never applies it to an empty list: windows are
nonempty for every positive `window_size`.) -/
def npMedian (l : List α) : α :=
  let s := l.insertionSort (· ≤ ·)
  if s.length % 2 = 1 then s.getD (s.length / 2) 0
  else (s.getD (s.length / 2 - 1) 0 + s.getD (s.length / 2) 0) / 2

/-- The loop indices of `find_missing_triggers` (core.py line 415):
`range(len(distances) - window_size + 1)`, computed in `ℤ` so that a
negative bound gives an empty range exactly as in Python. -/
def windowIndices (window_size : ℕ) (distances : List α) : List ℕ :=
  List.range ((distances.length : ℤ) - (window_size : ℤ) + 1).toNat

/-- The gap-detection core of `TriggerFixer.find_missing_triggers`
(core.py lines 415-434): for each window starting index `i`, take the
window `distances[i : i + window_size]`, its median, and flag a gap at
boundary `i + window_size` when the distance there exceeds
`median * max_interval_factor` and
`num_missing = int(round(current / median)) - 1` is positive.  Each
emitted pair is `(start_idx, num_missing)`, the data driving the
interpolation pass at lines 435-480. -/
def detectGaps (window_size : ℕ) (max_interval_factor : α) (distances : List α) :
    List (ℕ × ℤ) :=
  (windowIndices window_size distances).filterMap fun i =>
    let dist_window := (distances.drop i).take window_size
    let median_distance := npMedian dist_window
    let max_distance := median_distance * max_interval_factor
    if i + window_size < distances.length then
      let current_distance := distances.getD (i + window_size) 0
      if max_distance < current_distance then
        let num_missing := pyRound (current_distance / median_distance) - 1
        if 0 < num_missing then some (i + window_size, num_missing) else none
      else none
    else none

end Numeric

/-- `TriggerFixer.haversine_distance` (core.py lines 376-390): Earth radius
`R = 6371000` m; `np.radians` converts degrees to radians (`x * π / 180`);
`a = sin²(dlat/2) + cos lat1 · cos lat2 · sin²(dlon/2)`;
`c = 2 · arcsin (√a)`; result `R * c`. -/
noncomputable def haversine_distance (lat1 lon1 lat2 lon2 : ℝ) : ℝ :=
  6371000 *
    (2 * Real.arcsin (Real.sqrt
      (Real.sin ((lat2 * Real.pi / 180 - lat1 * Real.pi / 180) / 2) ^ 2 +
        Real.cos (lat1 * Real.pi / 180) * Real.cos (lat2 * Real.pi / 180) *
          Real.sin ((lon2 * Real.pi / 180 - lon1 * Real.pi / 180) / 2) ^ 2)))

/-- A position/trigger point as used by the interpolation and detection
code: the `lat`, `lon` (decimal degrees), `height` and `seconds` fields of
the row dictionaries. -/
structure PosPoint where
  lat : ℝ
  lon : ℝ
  height : ℝ
  seconds : ℝ

instance : Inhabited PosPoint :=
  ⟨⟨0, 0, 0, 0⟩⟩

/-- An interpolated point as produced by
`interpolate_positions_by_distance`: a `PosPoint` plus
`distance_from_prev`. -/
structure InterpPoint where
  lat : ℝ
  lon : ℝ
  height : ℝ
  seconds : ℝ
  distance_from_prev : ℝ

instance : Inhabited InterpPoint :=
  ⟨⟨0, 0, 0, 0, 0⟩⟩

/-- The sort key used by `sort_values("seconds")`. -/
def bySeconds (a b : PosPoint) : Prop :=
  a.seconds ≤ b.seconds

noncomputable instance : DecidableRel bySeconds :=
  fun a b => inferInstanceAs (Decidable (a.seconds ≤ b.seconds))

instance : IsTotal PosPoint bySeconds :=
  ⟨fun a b => le_total a.seconds b.seconds⟩

instance : IsTrans PosPoint bySeconds :=
  ⟨fun _ _ _ hab hbc => le_trans hab hbc⟩

/-- `events_data.sort_values("seconds")` (core.py line 395) and the sort of
the combined rows at line 549: a stable sort by the `seconds` column. -/
noncomputable def sortTriggers (events : List PosPoint) : List PosPoint :=
  List.insertionSort bySeconds events

/-- The consecutive-pair trigger distances of
`find_missing_triggers` (core.py lines 398-409):
`for i in range(len(events_data) - 1): haversine(events[i], events[i+1])`. -/
noncomputable def consecDistances (events : List PosPoint) : List ℝ :=
  (List.range (events.length - 1)).map fun i =>
    haversine_distance (events.getD i default).lat (events.getD i default).lon
      (events.getD (i + 1) default).lat (events.getD (i + 1) default).lon

/-- The detection portion of `find_missing_triggers` end to end
(core.py lines 394-434): sort the events by time, compute consecutive
distances, and scan the sliding windows. -/
noncomputable def find_missing_triggers_gaps (window_size : ℕ)
    (max_interval_factor : ℝ) (events : List PosPoint) : List (ℕ × ℤ) :=
  detectGaps window_size max_interval_factor (consecDistances (sortTriggers events))

/-- `relevant_pos_data` (core.py lines 255-258): the position samples whose
`seconds` lie within `[start_pos.seconds, end_pos.seconds]`, sorted by
`seconds`. -/
noncomputable def relevantPosData (start_pos end_pos : PosPoint)
    (pos_data : List PosPoint) : List PosPoint :=
  List.insertionSort bySeconds
    (pos_data.filter fun p =>
      decide (start_pos.seconds ≤ p.seconds ∧ p.seconds ≤ end_pos.seconds))

/-- `cumulative_distances` (core.py lines 292-306): start with `[0]` and,
for `i` in `range(1, len(samples))`, append the previous cumulative value
plus the haversine distance from sample `i-1` to sample `i`. -/
noncomputable def cumDistances (samples : List PosPoint) : List ℝ :=
  (List.range' 1 (samples.length - 1)).foldl
    (fun cum i =>
      cum ++ [cum.getLastD 0 +
        haversine_distance (samples.getD (i - 1) default).lat
          (samples.getD (i - 1) default).lon
          (samples.getD i default).lat (samples.getD i default).lon])
    [0]

/-- The scan loop of core.py lines 324-329: starting from `idx`, increment
while `idx < len(cum) - 1` and `cum[idx] < target`. -/
noncomputable def scanIdx (cum : List ℝ) (target : ℝ) (idx : ℕ) : ℕ :=
  if h : idx < cum.length - 1 ∧ cum.getD idx 0 < target then
    scanIdx cum target (idx + 1)
  else idx
termination_by cum.length - idx
decreasing_by
  obtain ⟨h1, _⟩ := h
  omega

/-- The straight-line interpolated coordinates of the fallback branch
(core.py lines 262-271) at loop index `i`: each field is
`start + (i / (num_points + 1)) * (end - start)`. -/
noncomputable def linearPointAt (start_pos end_pos : PosPoint) (num_points i : ℕ) :
    PosPoint :=
  { lat := start_pos.lat + ((i : ℝ) / ((num_points : ℝ) + 1)) * (end_pos.lat - start_pos.lat)
    lon := start_pos.lon + ((i : ℝ) / ((num_points : ℝ) + 1)) * (end_pos.lon - start_pos.lon)
    height := start_pos.height +
      ((i : ℝ) / ((num_points : ℝ) + 1)) * (end_pos.height - start_pos.height)
    seconds := start_pos.seconds +
      ((i : ℝ) / ((num_points : ℝ) + 1)) * (end_pos.seconds - start_pos.seconds) }

/-- The full fallback-branch record at loop index `i`, including
`distance_from_prev` (core.py lines 273-288): `segment_distance` for the
first point, otherwise the haversine distance from the previously emitted
point (whose coordinates are `linearPointAt` at `i - 1`). -/
noncomputable def linearInterpPt (start_pos end_pos : PosPoint) (num_points i : ℕ) :
    InterpPoint :=
  { lat := (linearPointAt start_pos end_pos num_points i).lat
    lon := (linearPointAt start_pos end_pos num_points i).lon
    height := (linearPointAt start_pos end_pos num_points i).height
    seconds := (linearPointAt start_pos end_pos num_points i).seconds
    distance_from_prev :=
      if i = 1 then
        haversine_distance start_pos.lat start_pos.lon end_pos.lat end_pos.lon /
          ((num_points : ℝ) + 1)
      else
        haversine_distance (linearPointAt start_pos end_pos num_points (i - 1)).lat
          (linearPointAt start_pos end_pos num_points (i - 1)).lon
          (linearPointAt start_pos end_pos num_points i).lat
          (linearPointAt start_pos end_pos num_points i).lon }

/-- The path-following interpolated point of core.py lines 319-359 at loop
index `i` (coordinates only; `distance_from_prev` is attached by the
loop): the target arc length is `i * total_distance / (num_points + 1)`;
the scan yields `idx`; at `idx = 0` the first relevant sample is used
verbatim, otherwise samples `idx - 1` and `idx` are linearly blended by
`(target - cum[idx-1]) / (cum[idx] - cum[idx-1])`. -/
noncomputable def pathPointAt (rel : List PosPoint) (cum : List ℝ)
    (total_distance : ℝ) (num_points i : ℕ) : PosPoint :=
  let target_distance := (i : ℝ) * total_distance / ((num_points : ℝ) + 1)
  let idx := scanIdx cum target_distance 0
  if idx = 0 then
    { lat := (rel.getD 0 default).lat
      lon := (rel.getD 0 default).lon
      height := (rel.getD 0 default).height
      seconds := (rel.getD 0 default).seconds }
  else
    let prev_dist := cum.getD (idx - 1) 0
    let next_dist := cum.getD idx 0
    let t := (target_distance - prev_dist) / (next_dist - prev_dist)
    let prev_point := rel.getD (idx - 1) default
    let next_point := rel.getD idx default
    { lat := prev_point.lat + t * (next_point.lat - prev_point.lat)
      lon := prev_point.lon + t * (next_point.lon - prev_point.lon)
      height := prev_point.height + t * (next_point.height - prev_point.height)
      seconds := prev_point.seconds + t * (next_point.seconds - prev_point.seconds) }

/-- The fallback loop of `interpolate_positions_by_distance` (core.py
lines 260-290): for `i` in `range(1, num_points + 1)`, linearly
interpolate each field; `distance_from_prev` is `segment_distance`
(that is, the direct haversine distance over `num_points + 1`) for the
first point and the haversine distance from the previously appended
point (`result[-1]`) afterwards. -/
noncomputable def fallbackLoop (start_pos end_pos : PosPoint) (num_points : ℕ) :
    List InterpPoint :=
  (List.range' 1 num_points).foldl
    (fun result i =>
      let q := linearPointAt start_pos end_pos num_points i
      let distance_from_prev :=
        if i = 1 then
          haversine_distance start_pos.lat start_pos.lon end_pos.lat end_pos.lon /
            ((num_points : ℝ) + 1)
        else
          haversine_distance (result.getLastD default).lat
            (result.getLastD default).lon q.lat q.lon
      result ++ [⟨q.lat, q.lon, q.height, q.seconds, distance_from_prev⟩])
    []

/-- The path-following loop of `interpolate_positions_by_distance`
(core.py lines 292-374): walk the cumulative arc lengths of the relevant
samples, carrying `last_point` (initially the start position) to compute
each `distance_from_prev`. -/
noncomputable def pathLoop (start_pos end_pos : PosPoint) (num_points : ℕ)
    (rel : List PosPoint) : List InterpPoint :=
  let total_distance :=
    haversine_distance start_pos.lat start_pos.lon end_pos.lat end_pos.lon
  let cum := cumDistances rel
  ((List.range' 1 num_points).foldl
    (fun (st : List InterpPoint × PosPoint) i =>
      let p := pathPointAt rel cum total_distance num_points i
      let dist_from_prev :=
        haversine_distance st.2.lat st.2.lon p.lat p.lon
      (st.1 ++ [⟨p.lat, p.lon, p.height, p.seconds, dist_from_prev⟩], p))
    ([], { lat := start_pos.lat, lon := start_pos.lon,
           height := start_pos.height, seconds := start_pos.seconds })).1

/-- The record the path-following loop emits at loop index `i`: the
`pathPointAt` coordinates plus the haversine distance from the previous
emitted point (the start position for `i = 1`).  Used to state the loop's
behaviour pointwise. -/
noncomputable def pathInterpPt (start_pos end_pos : PosPoint) (num_points : ℕ)
    (rel : List PosPoint) (i : ℕ) : InterpPoint :=
  let total_distance :=
    haversine_distance start_pos.lat start_pos.lon end_pos.lat end_pos.lon
  let cum := cumDistances rel
  let p := pathPointAt rel cum total_distance num_points i
  let prev :=
    if i = 1 then
      ({ lat := start_pos.lat, lon := start_pos.lon,
         height := start_pos.height, seconds := start_pos.seconds } : PosPoint)
    else pathPointAt rel cum total_distance num_points (i - 1)
  ⟨p.lat, p.lon, p.height, p.seconds,
    haversine_distance prev.lat prev.lon p.lat p.lon⟩

/-- `TriggerFixer.interpolate_positions_by_distance` (core.py lines
229-374): select the relevant samples; with fewer than 2 of them run the
linear fallback loop, otherwise the path-following loop. -/
noncomputable def interpolate_positions_by_distance (start_pos end_pos : PosPoint)
    (num_points : ℕ) (pos_data : List PosPoint) : List InterpPoint :=
  let rel := relevantPosData start_pos end_pos pos_data
  if rel.length < 2 then fallbackLoop start_pos end_pos num_points
  else pathLoop start_pos end_pos num_points rel

/-! ### The synthetic uniform trigger sequence of the gap-detection test

30 triggers 2 s and 50 m apart along the equator, with the triggers at
indices 15 and 16 removed.  Placing the points on the equator at longitude
steps of `lonUnit = 9 / (6371 * π)` degrees makes the haversine distance
between consecutive original triggers exactly 50 m. -/

/-- The longitude step, in degrees, whose equatorial haversine distance is
exactly 50 m (its radian measure is `50 / 6371000`). -/
noncomputable def lonUnit : ℝ :=
  9 / (6371 * Real.pi)

/-- The original index of the `j`-th remaining trigger once indices 15 and
16 are removed from `0..29`. -/
def origIndex (j : ℕ) : ℕ :=
  if j ≤ 14 then j else j + 2

/-- The original trigger with index `k`: on the equator, `k * lonUnit`
degrees east, at `2 * k` seconds. -/
noncomputable def trigAt (k : ℕ) : PosPoint :=
  { lat := 0, lon := (k : ℝ) * lonUnit, height := 0, seconds := 2 * (k : ℝ) }

/-- The 28 triggers remaining after removing indices 15 and 16. -/
noncomputable def eventsC1 : List PosPoint :=
  (List.range 28).map fun j => trigAt (origIndex j)

/-- The inter-trigger distances of `eventsC1`: 50 m everywhere except the
3-fold 150 m gap at boundary 14. -/
def dsReal : List ℝ :=
  List.replicate 14 50 ++ 150 :: List.replicate 12 50

/-! ### Format detection and export format (RecordParser / ResultAssembler) -/

/-- Whether `pat` is a prefix of `l` (on character lists). -/
def prefixOfChars : List Char → List Char → Bool
  | [], _ => true
  | _ :: _, [] => false
  | a :: as, b :: bs => a == b && prefixOfChars as bs

/-- Whether `pat` occurs as a contiguous substring of the second list:
Python's `pat in content`. -/
def hasSubChars (pat : List Char) : List Char → Bool
  | [] => prefixOfChars pat []
  | c :: rest => prefixOfChars pat (c :: rest) || hasSubChars pat rest

/-- Python's `pat in content` on strings. -/
def strContains (content pat : String) : Bool :=
  hasSubChars pat.toList content.toList

/-- Python `str.split()` with no argument (split on whitespace runs),
modelled for space-separated content. -/
def pySplit (s : String) : List String :=
  (s.splitOn " ").filter fun t => !(t == "")

/-- The decimal-format header signature `"latitude(deg)"`
(core.py line 35). -/
def decimalHeaderPat : String :=
  "latitude(deg)"

/-- The DMS-format header signature (core.py line 36): the 13 characters
`latitude(d` followed by the apostrophe (39), the double quote (34) and
`)`. -/
def dmsHeaderPat : String :=
  String.mk ['l', 'a', 't', 'i', 't', 'u', 'd', 'e', '(', 'd',
    Char.ofNat 39, Char.ofNat 34, ')']

/-- The position-log format detected by `load_position_data`. -/
inductive PosFormat where
  | decimal : PosFormat
  | dms : PosFormat
deriving DecidableEq

/-- The format-detection logic of `TriggerFixer.load_position_data`
(core.py lines 28-52): header signatures first; with neither present,
inspect the first non-comment, non-blank line and call the file decimal
when that line's first whitespace-separated token contains `/`, DMS
otherwise (also when there is no data line at all).  The result is stored
as `self.input_format` for the export step. -/
def detectPositionFormat (content : String) : PosFormat :=
  let is_decimal_format := strContains content decimalHeaderPat
  let is_dms_format := strContains content dmsHeaderPat
  if is_decimal_format then PosFormat.decimal
  else if is_dms_format then PosFormat.dms
  else
    let data_lines := (content.splitOn "\n").filter fun line =>
      !(line.trim == "") && !(line.startsWith "%")
    match data_lines with
    | [] => PosFormat.dms
    | first_line :: _ =>
      if strContains ((pySplit first_line).getD 0 "") "/" then PosFormat.decimal
      else PosFormat.dms

/-- The on-disk shape of one exported event row: a calendar-date decimal
row (`YYYY/MM/DD HH:MM:SS.sss lat lon ...`) or a GPS week/seconds DMS row
(`week seconds d m s d m s ...`).  The numeric text rendering is
abstracted; only the row family produced by each branch of
`format_for_events_export` is modelled. -/
inductive EventLineFormat where
  | decimal : EventLineFormat
  | dms : EventLineFormat
deriving DecidableEq

/-- The row family each detected position-log format serialises to
(core.py line 562: `if self.input_format == "decimal"`). -/
def exportTag : PosFormat → EventLineFormat
  | PosFormat.decimal => EventLineFormat.decimal
  | PosFormat.dms => EventLineFormat.dms

/-- The event log itself is always parsed as the DMS/GPS-time format
(`load_events_data`, core.py lines 186-227): its on-disk row family. -/
def eventLogLineFormat : EventLineFormat :=
  EventLineFormat.dms

/-- The row-format skeleton of `TriggerFixer.format_for_events_export`
(core.py lines 537-650): concatenate original and interpolated rows, sort
by `seconds`, then serialise every row with the decimal formatter when
`self.input_format == "decimal"` and with the DMS formatter otherwise. -/
noncomputable def format_for_events_export_formats (input_format : PosFormat)
    (events interpolated : List PosPoint) : List EventLineFormat :=
  let combined := sortTriggers (events ++ interpolated)
  combined.map fun _ =>
    match input_format with
    | PosFormat.decimal => EventLineFormat.decimal
    | PosFormat.dms => EventLineFormat.dms

/-! ### Loading (RecordParser) -/

/-- One parsed row of a DMS-format position file, as read by
`pd.read_csv` in `_load_dms_format` (core.py lines 117-145). -/
structure RawDmsRecord where
  week : ℤ
  seconds : ℝ
  lat_d : ℝ
  lat_m : ℝ
  lat_s : ℝ
  lon_d : ℝ
  lon_m : ℝ
  lon_s : ℝ
  height : ℝ

/-- One in-memory position sample after loading. -/
structure PosSample where
  week : ℤ
  seconds : ℝ
  lat : ℝ
  lon : ℝ
  height : ℝ
  timestamp : ℝ

/-- `TriggerFixer._load_dms_format` (core.py lines 117-160): the rows in
file order, each augmented with `timestamp` (from GPS week/seconds) and
decimal `lat`/`lon` (from DMS).  No sorting happens here. -/
noncomputable def load_dms_format (epoch : ℝ) (rows : List RawDmsRecord) :
    List PosSample :=
  rows.map fun r =>
    { week := r.week
      seconds := r.seconds
      lat := dms_to_decimal r.lat_d r.lat_m r.lat_s
      lon := dms_to_decimal r.lon_d r.lon_m r.lon_s
      height := r.height
      timestamp := gps_to_datetime epoch r.week r.seconds }

/-! ## Helper lemmas -/

/-- The haversine distance from a point to itself vanishes. -/
lemma haversine_self (lat lon : ℝ) : haversine_distance lat lon lat lon = 0 := by
  unfold haversine_distance
  norm_num [Real.arcsin_zero]

/-- On the equator the haversine distance is the Earth radius times the
longitude difference in radians, as long as that difference is at most
`π`. -/
lemma haversine_equator (a b : ℝ) (hab : a ≤ b)
    (hpi : (b - a) * Real.pi / 180 ≤ Real.pi) :
    haversine_distance 0 a 0 b = 6371000 * ((b - a) * Real.pi / 180) := by
  have hpip := Real.pi_pos
  have hx0 : 0 ≤ (b - a) * Real.pi / 360 := by
    have : 0 ≤ b - a := by linarith
    positivity
  have hx2 : (b - a) * Real.pi / 360 ≤ Real.pi / 2 := by linarith
  have hsin : 0 ≤ Real.sin ((b - a) * Real.pi / 360) :=
    Real.sin_nonneg_of_nonneg_of_le_pi hx0 (by linarith)
  have e1 : (0 : ℝ) * Real.pi / 180 = 0 := by ring
  unfold haversine_distance
  simp only [e1, Real.cos_zero]
  rw [show ((0 : ℝ) - 0) / 2 = 0 by ring]
  rw [show (b * Real.pi / 180 - a * Real.pi / 180) / 2 = (b - a) * Real.pi / 360 by ring]
  rw [Real.sin_zero]
  rw [show (0 : ℝ) ^ 2 + 1 * 1 * Real.sin ((b - a) * Real.pi / 360) ^ 2
      = Real.sin ((b - a) * Real.pi / 360) ^ 2 by ring]
  rw [Real.sqrt_sq hsin, Real.arcsin_sin (by linarith) hx2]
  ring

/-- Between two equator points `a * lonUnit` and `b * lonUnit` degrees
east (`a ≤ b`, at most 3 units apart) the haversine distance is exactly
`50 * (b - a)` metres. -/
lemma havUnit (a b : ℕ) (h1 : a ≤ b) (h2 : b - a ≤ 3) :
    haversine_distance 0 ((a : ℝ) * lonUnit) 0 ((b : ℝ) * lonUnit)
      = 50 * ((b : ℝ) - (a : ℝ)) := by
  have hpip := Real.pi_pos
  have hpi3 := Real.pi_gt_three
  have hab : (a : ℝ) ≤ (b : ℝ) := Nat.cast_le.2 h1
  have hb3 : (b : ℝ) - (a : ℝ) ≤ 3 := by
    have hba : b ≤ a + 3 := by omega
    have h := (Nat.cast_le (α := ℝ)).2 hba
    push_cast at h
    linarith
  have hu : 0 < lonUnit := by
    unfold lonUnit
    positivity
  have habu : (a : ℝ) * lonUnit ≤ (b : ℝ) * lonUnit :=
    mul_le_mul_of_nonneg_right hab hu.le
  have hdiff : ((b : ℝ) * lonUnit - (a : ℝ) * lonUnit) * Real.pi / 180
      = ((b : ℝ) - (a : ℝ)) / 127420 := by
    unfold lonUnit
    field_simp
    ring
  rw [haversine_equator _ _ habu (by rw [hdiff]; linarith), hdiff]
  field_simp
  ring

lemma origIndex_mono : ∀ i j : ℕ, i < j → origIndex i < origIndex j := by
  intro i j hij
  unfold origIndex
  split_ifs <;> omega

lemma origIndex_step (j : ℕ) :
    origIndex (j + 1) = origIndex j + (if j = 14 then 3 else 1) := by
  unfold origIndex
  split_ifs <;> omega

lemma eventsC1_sorted : List.Sorted bySeconds eventsC1 := by
  unfold eventsC1 List.Sorted
  rw [List.pairwise_map]
  apply (List.pairwise_lt_range 28).imp
  intro i j hij
  have h := origIndex_mono i j hij
  have hc : (origIndex i : ℝ) ≤ (origIndex j : ℝ) := Nat.cast_le.2 h.le
  unfold bySeconds trigAt
  simp only
  linarith

lemma sortTriggers_eventsC1 : sortTriggers eventsC1 = eventsC1 :=
  List.Sorted.insertionSort_eq eventsC1_sorted

lemma eventsC1_getD (j : ℕ) (h : j < 28) :
    eventsC1.getD j default = trigAt (origIndex j) := by
  rw [List.getD_eq_getElem _ _ (by simpa [eventsC1] using h)]
  simp [eventsC1]

lemma dsReal_getD (j : ℕ) :
    dsReal.getD j 0 = if j = 14 then (150 : ℝ) else if j < 27 then 50 else 0 := by
  unfold dsReal
  rcases lt_trichotomy j 14 with hj | hj | hj
  · rw [List.getD_append _ _ _ _ (by simpa using hj)]
    rw [List.getD_eq_getElem _ _ (by simpa using hj)]
    rw [List.getElem_replicate]
    rw [if_neg (by omega), if_pos (by omega)]
  · subst hj
    rw [List.getD_append_right _ _ _ _ (by simp)]
    simp
  · rw [List.getD_append_right _ _ _ _ (by simp; omega)]
    have h15 : j - (List.replicate 14 (50 : ℝ)).length = (j - 15) + 1 := by
      simp
      omega
    rw [h15, List.getD_cons_succ]
    rcases lt_or_ge j 27 with hj27 | hj27
    · rw [List.getD_eq_getElem _ _ (by simp; omega)]
      rw [List.getElem_replicate]
      rw [if_neg (by omega), if_pos (by omega)]
    · rw [List.getD_eq_default _ _ (by simp; omega)]
      rw [if_neg (by omega), if_neg (by omega)]

/-- The consecutive distances of the 28-trigger sequence: 50 m everywhere
except 150 m at boundary 14. -/
lemma consec_eventsC1 : consecDistances eventsC1 = dsReal := by
  apply List.ext_getElem
  · simp [consecDistances, eventsC1, dsReal]
  intro j h1 h2
  have hj27 : j < 27 := by simpa [consecDistances, eventsC1] using h1
  rw [← List.getD_eq_getElem _ 0 h1, ← List.getD_eq_getElem _ 0 h2]
  unfold consecDistances
  rw [List.getD_eq_getElem _ _ (by simpa [consecDistances] using h1)]
  simp only [List.getElem_map, List.getElem_range]
  rw [eventsC1_getD j (by omega), eventsC1_getD (j + 1) (by omega)]
  unfold trigAt
  simp only
  rw [havUnit (origIndex j) (origIndex (j + 1))
      (origIndex_mono j (j + 1) (by omega)).le
      (by rw [origIndex_step]; split_ifs <;> omega)]
  have hstep : (origIndex (j + 1) : ℝ) - (origIndex j : ℝ)
      = if j = 14 then 3 else 1 := by
    rw [origIndex_step]
    split_ifs <;> push_cast <;> ring
  rw [hstep, dsReal_getD]
  split_ifs <;> norm_num

/-- A boundary `b ≥ W` is hit by exactly the window index `b - W` within
`range N` (when that index is in range). -/
lemma filter_range_boundary (N W b : ℕ) (hW : W ≤ b) :
    ((List.range N).filter fun i => i + W == b) =
      if b - W < N then [b - W] else [] := by
  induction N with
  | zero => simp
  | succ n ih =>
    rw [List.range_succ, List.filter_append, ih]
    by_cases hc : b - W < n
    · rw [if_pos hc, if_pos (by omega)]
      have hne : ¬((n + W == b) = true) := by
        simp only [beq_iff_eq]
        omega
      simp [List.filter, hne]
    · by_cases he : n + W = b
      · rw [if_neg hc, if_pos (by omega)]
        have hbw : b - W = n := by omega
        simp [List.filter, he, hbw]
      · rw [if_neg hc, if_neg (by omega)]
        have hne : ¬((n + W == b) = true) := by
          simp only [beq_iff_eq]
          omega
        simp [List.filter, hne]

/-- An append-accumulator loop whose body depends on the accumulator only
through what the invariant fixes is a `map`. -/
lemma fold_append_map {β : Type*} (f : List β → ℕ → β) (g : ℕ → β)
    (hf : ∀ acc i, 1 ≤ i → acc = (List.range' 1 (i - 1)).map g → f acc i = g i) :
    ∀ m : ℕ, (List.range' 1 m).foldl (fun acc i => acc ++ [f acc i]) []
      = (List.range' 1 m).map g := by
  intro m
  induction m with
  | zero => rfl
  | succ k ih =>
    simp only [List.range'_concat, Nat.one_mul, List.foldl_append, List.map_append,
      List.foldl_cons, List.foldl_nil, List.map_cons, List.map_nil, ih]
    rw [show 1 + k = k + 1 by omega]
    rw [hf _ (k + 1) (by omega) (by rw [Nat.add_sub_cancel])]

set_option maxHeartbeats 1000000 in
/-- The fallback loop emits exactly the `linearInterpPt` records. -/
lemma fallbackLoop_eq_map (start_pos end_pos : PosPoint) (n : ℕ) :
    fallbackLoop start_pos end_pos n
      = (List.range' 1 n).map (linearInterpPt start_pos end_pos n) := by
  unfold fallbackLoop
  refine fold_append_map _ _ ?_ n
  intro acc k hk hacc
  dsimp only
  unfold linearInterpPt
  rcases eq_or_ne k 1 with hk1 | hk1
  · subst hk1
    rw [if_pos rfl, if_pos rfl]
  · rw [if_neg hk1, if_neg hk1]
    have hlast : acc.getLastD default = linearInterpPt start_pos end_pos n (k - 1) := by
      rw [hacc, show k - 1 = (k - 2) + 1 by omega, List.range'_concat, Nat.one_mul,
        List.map_append, List.map_cons, List.map_nil, List.getLastD_concat]
      congr 1
      omega
    rw [hlast]
    rfl

/-- The pair-state loop of the path-following branch is a `map` plus the
final trailing state. -/
lemma fold_pair_map (start : PosPoint) (p : ℕ → PosPoint)
    (mk2 : PosPoint → PosPoint → InterpPoint) :
    ∀ m : ℕ, (List.range' 1 m).foldl
        (fun (st : List InterpPoint × PosPoint) i => (st.1 ++ [mk2 st.2 (p i)], p i))
        ([], start)
      = ((List.range' 1 m).map (fun i => mk2 (if i = 1 then start else p (i - 1)) (p i)),
         if m = 0 then start else p m) := by
  intro m
  induction m with
  | zero => rfl
  | succ k ih =>
    simp only [List.range'_concat, Nat.one_mul, List.foldl_append, List.map_append,
      List.foldl_cons, List.foldl_nil, List.map_cons, List.map_nil, ih]
    rw [show 1 + k = k + 1 by omega]
    refine Prod.ext ?_ ?_
    · dsimp only
      congr 1
      rcases Nat.eq_zero_or_pos k with hk | hk
      · subst hk
        norm_num
      · rw [if_neg (by omega), if_neg (by omega), Nat.add_sub_cancel]
    · dsimp only
      rw [if_neg (by omega)]

set_option maxHeartbeats 1000000 in
/-- The path-following loop emits exactly the `pathInterpPt` records. -/
lemma pathLoop_eq_map (start_pos end_pos : PosPoint) (n : ℕ) (rel : List PosPoint) :
    pathLoop start_pos end_pos n rel
      = (List.range' 1 n).map (pathInterpPt start_pos end_pos n rel) := by
  have h := fold_pair_map
    ({ lat := start_pos.lat, lon := start_pos.lon,
       height := start_pos.height, seconds := start_pos.seconds })
    (fun i => pathPointAt rel (cumDistances rel)
      (haversine_distance start_pos.lat start_pos.lon end_pos.lat end_pos.lon) n i)
    (fun prev q => ⟨q.lat, q.lon, q.height, q.seconds,
      haversine_distance prev.lat prev.lon q.lat q.lon⟩) n
  exact congrArg Prod.fst h

lemma getD_map_range' {β : Type*} [Inhabited β] (g : ℕ → β) (n i : ℕ)
    (h1 : 1 ≤ i) (h2 : i ≤ n) :
    ((List.range' 1 n).map g).getD (i - 1) default = g i := by
  rw [List.getD_eq_getElem _ _ (by simp [List.length_range']; omega)]
  simp only [List.getElem_map, List.getElem_range']
  congr 1
  omega

/-- The scan loop lands exactly on the least index whose cumulative
distance reaches the target. -/
lemma scanIdx_eq (cum : List ℝ) (t : ℝ) (j : ℕ) (hlen : j < cum.length)
    (hge : t ≤ cum.getD j 0) (hlt : ∀ k, k < j → cum.getD k 0 < t) :
    ∀ idx, idx ≤ j → scanIdx cum t idx = j := by
  have key : ∀ fuel idx, idx ≤ j → j - idx ≤ fuel → scanIdx cum t idx = j := by
    intro fuel
    induction fuel with
    | zero =>
      intro idx hidx hf
      have hij : idx = j := by omega
      subst hij
      rw [scanIdx, dif_neg fun hc => absurd hc.2 (not_lt.2 hge)]
    | succ k ih =>
      intro idx hidx hf
      rcases eq_or_lt_of_le hidx with heq | hlt2
      · subst heq
        rw [scanIdx, dif_neg fun hc => absurd hc.2 (not_lt.2 hge)]
      · rw [scanIdx, dif_pos ⟨by omega, hlt idx hlt2⟩]
        exact ih (idx + 1) (by omega) (by omega)
  exact fun idx hidx => key j idx hidx (by omega)

lemma relevant_two_zeros :
    relevantPosData ⟨0, 0, 0, 0⟩ ⟨0, 0, 0, 0⟩ [⟨0, 0, 0, 0⟩, ⟨0, 0, 0, 0⟩]
      = [⟨0, 0, 0, 0⟩, ⟨0, 0, 0, 0⟩] := by
  simp [relevantPosData, List.filter, List.insertionSort, List.orderedInsert, bySeconds]

lemma cum_two_zeros :
    cumDistances [(⟨0, 0, 0, 0⟩ : PosPoint), ⟨0, 0, 0, 0⟩] = [0, 0] := by
  simp [cumDistances, List.range', haversine_self]

/-! ## Claim theorems -/

set_option maxHeartbeats 4000000 in
/-- Claim C1: for the trigger sequence of 30 uniformly spaced triggers
(2 s and 50 m apart along a straight line) with the triggers at indices 15
and 16 removed, gap detection with `window_size = 10` and
`max_interval_factor = 1.5` flags exactly one gap, at boundary 14 — the
boundary immediately after the last trigger preceding the removed pair
(sorted event 14 is original trigger 14, sorted event 15 is original
trigger 17) — with `missingCount` equal to 2. -/
theorem find_missing_triggers_uniform_gap :
    find_missing_triggers_gaps 10 (3 / 2 : ℝ) eventsC1 = [(14, 2)] := by
  unfold find_missing_triggers_gaps
  rw [sortTriggers_eventsC1, consec_eventsC1]
  have hlen : dsReal.length = 27 := by simp [dsReal]
  have h18 : windowIndices (α := ℝ) 10 dsReal =
      [0, 1, 2, 3, 4, 5, 6, 7, 8, 9, 10, 11, 12, 13, 14, 15, 16, 17] := by
    unfold windowIndices
    rw [hlen]
    rfl
  rw [detectGaps, h18]
  norm_num [dsReal, npMedian, pyRound, List.replicate, List.filterMap_cons]

/-- Claim C2: a gap at boundary `i + W` is emitted only when the distance
there exceeds the window median times `max_interval_factor` and the
rounded quotient minus one is strictly positive; consequently every
emitted gap's `missingCount` equals that quantity and is at least 1, so a
`missingCount ≤ 0` after rounding suppresses emission. -/
theorem detectGaps_spec {α : Type*} [LinearOrderedField α] [FloorRing α]
    (W : ℕ) (maxf : α) (ds : List α) (b : ℕ) (m : ℤ)
    (hmem : (b, m) ∈ detectGaps W maxf ds) :
    W ≤ b ∧ b < ds.length ∧
      npMedian ((ds.drop (b - W)).take W) * maxf < ds.getD b 0 ∧
      m = pyRound (ds.getD b 0 / npMedian ((ds.drop (b - W)).take W)) - 1 ∧
      1 ≤ m := by
  unfold detectGaps at hmem
  rw [List.mem_filterMap] at hmem
  obtain ⟨i, hi, heq⟩ := hmem
  dsimp only at heq
  split_ifs at heq with h1 h2 h3
  simp only [Option.some.injEq, Prod.mk.injEq] at heq
  obtain ⟨hb, hm⟩ := heq
  subst hb
  subst hm
  rw [Nat.add_sub_cancel]
  exact ⟨Nat.le_add_left _ _, h1, h2, rfl, by omega⟩

/-- Witness for claim C2 at `W = 1`, `max_interval_factor = 3/2`,
`distances = [1, 3]`: the gap `(1, 2)` is emitted and its `missingCount`
is at least 1. -/
theorem detectGaps_spec_witness :
    ((1 : ℕ), (2 : ℤ)) ∈ detectGaps 1 (3 / 2 : ℝ) [1, 3] ∧ (1 : ℤ) ≤ 2 := by
  have hm : ((1 : ℕ), (2 : ℤ)) ∈ detectGaps 1 (3 / 2 : ℝ) [1, 3] := by
    have hw : windowIndices (α := ℝ) 1 [1, 3] = [0, 1] := rfl
    rw [detectGaps, hw]
    norm_num [npMedian, pyRound, List.filterMap_cons]
  exact ⟨hm, (detectGaps_spec 1 (3 / 2 : ℝ) [1, 3] 1 2 hm).2.2.2.2⟩

set_option maxHeartbeats 1000000 in
/-- Claim C3: with fewer than 2 dense samples in the gap's time range, the
`n` synthesized points are the exact straight-line linear interpolations
at ratios `i / (n + 1)`, the first `distance_from_prev` is the direct
haversine distance over `n + 1`, and each later `distance_from_prev` is
the haversine distance to the previously emitted point. -/
theorem interpolate_fallback_spec (start_pos end_pos : PosPoint) (n : ℕ)
    (pos_data : List PosPoint)
    (hrel : (relevantPosData start_pos end_pos pos_data).length < 2)
    (i : ℕ) (h1 : 1 ≤ i) (h2 : i ≤ n) :
    (interpolate_positions_by_distance start_pos end_pos n pos_data).length = n ∧
    ((interpolate_positions_by_distance start_pos end_pos n pos_data).getD (i - 1)
        default).lat
      = start_pos.lat + ((i : ℝ) / ((n : ℝ) + 1)) * (end_pos.lat - start_pos.lat) ∧
    ((interpolate_positions_by_distance start_pos end_pos n pos_data).getD (i - 1)
        default).lon
      = start_pos.lon + ((i : ℝ) / ((n : ℝ) + 1)) * (end_pos.lon - start_pos.lon) ∧
    ((interpolate_positions_by_distance start_pos end_pos n pos_data).getD (i - 1)
        default).height
      = start_pos.height + ((i : ℝ) / ((n : ℝ) + 1)) * (end_pos.height - start_pos.height) ∧
    ((interpolate_positions_by_distance start_pos end_pos n pos_data).getD (i - 1)
        default).seconds
      = start_pos.seconds + ((i : ℝ) / ((n : ℝ) + 1)) * (end_pos.seconds - start_pos.seconds) ∧
    ((interpolate_positions_by_distance start_pos end_pos n pos_data).getD (i - 1)
        default).distance_from_prev
      = (if i = 1 then
          haversine_distance start_pos.lat start_pos.lon end_pos.lat end_pos.lon /
            ((n : ℝ) + 1)
        else
          haversine_distance
            ((interpolate_positions_by_distance start_pos end_pos n pos_data).getD (i - 2)
                default).lat
            ((interpolate_positions_by_distance start_pos end_pos n pos_data).getD (i - 2)
                default).lon
            ((interpolate_positions_by_distance start_pos end_pos n pos_data).getD (i - 1)
                default).lat
            ((interpolate_positions_by_distance start_pos end_pos n pos_data).getD (i - 1)
                default).lon) := by
  have hbody : interpolate_positions_by_distance start_pos end_pos n pos_data
      = (List.range' 1 n).map (linearInterpPt start_pos end_pos n) := by
    unfold interpolate_positions_by_distance
    rw [if_pos hrel, fallbackLoop_eq_map]
  have hget : ∀ jj, 1 ≤ jj → jj ≤ n →
      (interpolate_positions_by_distance start_pos end_pos n pos_data).getD (jj - 1) default
        = linearInterpPt start_pos end_pos n jj := by
    intro jj hj1 hj2
    rw [hbody]
    exact getD_map_range' _ n jj hj1 hj2
  refine ⟨by rw [hbody]; simp [List.length_range'], ?_, ?_, ?_, ?_, ?_⟩ <;>
    rw [hget i h1 h2]
  · rfl
  · rfl
  · rfl
  · rfl
  · rcases eq_or_ne i 1 with hi1 | hi1
    · subst hi1
      rw [if_pos rfl]
      unfold linearInterpPt
      rw [if_pos rfl]
    · rw [if_neg hi1, show i - 2 = i - 1 - 1 by omega, hget (i - 1) (by omega) (by omega)]
      unfold linearInterpPt
      rw [if_neg hi1]

/-- Witness for claim C3: one synthesized point between `(0,0,0,0)` and
`(1,1,1,1)` with no dense samples; its latitude is the midpoint. -/
theorem interpolate_fallback_spec_witness :
    (relevantPosData ⟨0, 0, 0, 0⟩ ⟨1, 1, 1, 1⟩ []).length < 2 ∧
      ((interpolate_positions_by_distance ⟨0, 0, 0, 0⟩ ⟨1, 1, 1, 1⟩ 1 []).getD (1 - 1)
          default).lat
        = (⟨0, 0, 0, 0⟩ : PosPoint).lat +
            (((1 : ℕ) : ℝ) / (((1 : ℕ) : ℝ) + 1)) *
              ((⟨1, 1, 1, 1⟩ : PosPoint).lat - (⟨0, 0, 0, 0⟩ : PosPoint).lat) := by
  have hrel : (relevantPosData (⟨0, 0, 0, 0⟩ : PosPoint) ⟨1, 1, 1, 1⟩ []).length < 2 := by
    simp [relevantPosData]
  exact ⟨hrel,
    ((interpolate_fallback_spec ⟨0, 0, 0, 0⟩ ⟨1, 1, 1, 1⟩ 1 [] hrel 1 le_rfl le_rfl).2).1⟩

set_option maxHeartbeats 1000000 in
/-- Claim C4: in the path-following branch (at least 2 relevant samples),
when `j` is the least index with `cum[j] ≥ target` for
`target = i * totalDistance / (n + 1)`, the `i`-th emitted point is the
first relevant sample verbatim if `j = 0`, and otherwise the linear blend
of samples `j - 1` and `j` at ratio
`(target - cum[j-1]) / (cum[j] - cum[j-1])` in `lat`, `lon`, `height` and
`seconds`. -/
theorem interpolate_pathfollow_spec (start_pos end_pos : PosPoint) (n : ℕ)
    (pos_data : List PosPoint)
    (hrel : 2 ≤ (relevantPosData start_pos end_pos pos_data).length)
    (i : ℕ) (h1 : 1 ≤ i) (h2 : i ≤ n) (j : ℕ)
    (hjlen : j < (cumDistances (relevantPosData start_pos end_pos pos_data)).length)
    (hge : (i : ℝ) * haversine_distance start_pos.lat start_pos.lon end_pos.lat
          end_pos.lon / ((n : ℝ) + 1)
        ≤ (cumDistances (relevantPosData start_pos end_pos pos_data)).getD j 0)
    (hlt : ∀ k, k < j →
      (cumDistances (relevantPosData start_pos end_pos pos_data)).getD k 0
        < (i : ℝ) * haversine_distance start_pos.lat start_pos.lon end_pos.lat
            end_pos.lon / ((n : ℝ) + 1)) :
    (⟨((interpolate_positions_by_distance start_pos end_pos n pos_data).getD (i - 1)
          default).lat,
      ((interpolate_positions_by_distance start_pos end_pos n pos_data).getD (i - 1)
          default).lon,
      ((interpolate_positions_by_distance start_pos end_pos n pos_data).getD (i - 1)
          default).height,
      ((interpolate_positions_by_distance start_pos end_pos n pos_data).getD (i - 1)
          default).seconds⟩ : PosPoint)
      = if j = 0 then (relevantPosData start_pos end_pos pos_data).getD 0 default
        else
          { lat := ((relevantPosData start_pos end_pos pos_data).getD (j - 1) default).lat
              + ((i : ℝ) * haversine_distance start_pos.lat start_pos.lon end_pos.lat
                    end_pos.lon / ((n : ℝ) + 1)
                  - (cumDistances (relevantPosData start_pos end_pos pos_data)).getD (j - 1) 0)
                / ((cumDistances (relevantPosData start_pos end_pos pos_data)).getD j 0
                  - (cumDistances (relevantPosData start_pos end_pos pos_data)).getD (j - 1) 0)
                * (((relevantPosData start_pos end_pos pos_data).getD j default).lat
                  - ((relevantPosData start_pos end_pos pos_data).getD (j - 1) default).lat)
            lon := ((relevantPosData start_pos end_pos pos_data).getD (j - 1) default).lon
              + ((i : ℝ) * haversine_distance start_pos.lat start_pos.lon end_pos.lat
                    end_pos.lon / ((n : ℝ) + 1)
                  - (cumDistances (relevantPosData start_pos end_pos pos_data)).getD (j - 1) 0)
                / ((cumDistances (relevantPosData start_pos end_pos pos_data)).getD j 0
                  - (cumDistances (relevantPosData start_pos end_pos pos_data)).getD (j - 1) 0)
                * (((relevantPosData start_pos end_pos pos_data).getD j default).lon
                  - ((relevantPosData start_pos end_pos pos_data).getD (j - 1) default).lon)
            height := ((relevantPosData start_pos end_pos pos_data).getD (j - 1) default).height
              + ((i : ℝ) * haversine_distance start_pos.lat start_pos.lon end_pos.lat
                    end_pos.lon / ((n : ℝ) + 1)
                  - (cumDistances (relevantPosData start_pos end_pos pos_data)).getD (j - 1) 0)
                / ((cumDistances (relevantPosData start_pos end_pos pos_data)).getD j 0
                  - (cumDistances (relevantPosData start_pos end_pos pos_data)).getD (j - 1) 0)
                * (((relevantPosData start_pos end_pos pos_data).getD j default).height
                  - ((relevantPosData start_pos end_pos pos_data).getD (j - 1) default).height)
            seconds := ((relevantPosData start_pos end_pos pos_data).getD (j - 1) default).seconds
              + ((i : ℝ) * haversine_distance start_pos.lat start_pos.lon end_pos.lat
                    end_pos.lon / ((n : ℝ) + 1)
                  - (cumDistances (relevantPosData start_pos end_pos pos_data)).getD (j - 1) 0)
                / ((cumDistances (relevantPosData start_pos end_pos pos_data)).getD j 0
                  - (cumDistances (relevantPosData start_pos end_pos pos_data)).getD (j - 1) 0)
                * (((relevantPosData start_pos end_pos pos_data).getD j default).seconds
                  - ((relevantPosData start_pos end_pos pos_data).getD (j - 1) default).seconds) } := by
  have hscan : scanIdx (cumDistances (relevantPosData start_pos end_pos pos_data))
      ((i : ℝ) * haversine_distance start_pos.lat start_pos.lon end_pos.lat end_pos.lon /
        ((n : ℝ) + 1)) 0 = j :=
    scanIdx_eq _ _ j hjlen hge hlt 0 (Nat.zero_le j)
  have hbody : interpolate_positions_by_distance start_pos end_pos n pos_data
      = (List.range' 1 n).map
          (pathInterpPt start_pos end_pos n (relevantPosData start_pos end_pos pos_data)) := by
    unfold interpolate_positions_by_distance
    rw [if_neg (by omega), pathLoop_eq_map]
  have hget : (interpolate_positions_by_distance start_pos end_pos n pos_data).getD
        (i - 1) default
      = pathInterpPt start_pos end_pos n (relevantPosData start_pos end_pos pos_data) i := by
    rw [hbody]
    exact getD_map_range' _ n i h1 h2
  rw [hget]
  show pathPointAt (relevantPosData start_pos end_pos pos_data)
      (cumDistances (relevantPosData start_pos end_pos pos_data))
      (haversine_distance start_pos.lat start_pos.lon end_pos.lat end_pos.lon) n i = _
  unfold pathPointAt
  dsimp only
  rw [hscan]

/-- Witness for claim C4: coincident bracketing triggers with two
coincident relevant samples; the least index with `cum[j] ≥ 0` is `j = 0`,
so the emitted point is the first relevant sample verbatim. -/
theorem interpolate_pathfollow_spec_witness :
    2 ≤ (relevantPosData ⟨0, 0, 0, 0⟩ ⟨0, 0, 0, 0⟩ [⟨0, 0, 0, 0⟩, ⟨0, 0, 0, 0⟩]).length ∧
      (⟨((interpolate_positions_by_distance ⟨0, 0, 0, 0⟩ ⟨0, 0, 0, 0⟩ 1
            [⟨0, 0, 0, 0⟩, ⟨0, 0, 0, 0⟩]).getD (1 - 1) default).lat,
        ((interpolate_positions_by_distance ⟨0, 0, 0, 0⟩ ⟨0, 0, 0, 0⟩ 1
            [⟨0, 0, 0, 0⟩, ⟨0, 0, 0, 0⟩]).getD (1 - 1) default).lon,
        ((interpolate_positions_by_distance ⟨0, 0, 0, 0⟩ ⟨0, 0, 0, 0⟩ 1
            [⟨0, 0, 0, 0⟩, ⟨0, 0, 0, 0⟩]).getD (1 - 1) default).height,
        ((interpolate_positions_by_distance ⟨0, 0, 0, 0⟩ ⟨0, 0, 0, 0⟩ 1
            [⟨0, 0, 0, 0⟩, ⟨0, 0, 0, 0⟩]).getD (1 - 1) default).seconds⟩ : PosPoint)
        = (relevantPosData ⟨0, 0, 0, 0⟩ ⟨0, 0, 0, 0⟩
            [⟨0, 0, 0, 0⟩, ⟨0, 0, 0, 0⟩]).getD 0 default := by
  have hrel : 2 ≤ (relevantPosData (⟨0, 0, 0, 0⟩ : PosPoint) ⟨0, 0, 0, 0⟩
      [⟨0, 0, 0, 0⟩, ⟨0, 0, 0, 0⟩]).length := by
    rw [relevant_two_zeros]
    norm_num
  have hjlen : (0 : ℕ) < (cumDistances (relevantPosData (⟨0, 0, 0, 0⟩ : PosPoint)
      ⟨0, 0, 0, 0⟩ [⟨0, 0, 0, 0⟩, ⟨0, 0, 0, 0⟩])).length := by
    rw [relevant_two_zeros, cum_two_zeros]
    norm_num
  have hge : ((1 : ℕ) : ℝ) * haversine_distance (⟨0, 0, 0, 0⟩ : PosPoint).lat
        (⟨0, 0, 0, 0⟩ : PosPoint).lon (⟨0, 0, 0, 0⟩ : PosPoint).lat
        (⟨0, 0, 0, 0⟩ : PosPoint).lon / (((1 : ℕ) : ℝ) + 1)
      ≤ (cumDistances (relevantPosData (⟨0, 0, 0, 0⟩ : PosPoint) ⟨0, 0, 0, 0⟩
          [⟨0, 0, 0, 0⟩, ⟨0, 0, 0, 0⟩])).getD 0 0 := by
    rw [relevant_two_zeros, cum_two_zeros]
    simp [haversine_self]
  have hlt : ∀ k, k < 0 →
      (cumDistances (relevantPosData (⟨0, 0, 0, 0⟩ : PosPoint) ⟨0, 0, 0, 0⟩
          [⟨0, 0, 0, 0⟩, ⟨0, 0, 0, 0⟩])).getD k 0
        < ((1 : ℕ) : ℝ) * haversine_distance (⟨0, 0, 0, 0⟩ : PosPoint).lat
            (⟨0, 0, 0, 0⟩ : PosPoint).lon (⟨0, 0, 0, 0⟩ : PosPoint).lat
            (⟨0, 0, 0, 0⟩ : PosPoint).lon / (((1 : ℕ) : ℝ) + 1) :=
    fun k hk => absurd hk (Nat.not_lt_zero k)
  have h := interpolate_pathfollow_spec ⟨0, 0, 0, 0⟩ ⟨0, 0, 0, 0⟩ 1
    [⟨0, 0, 0, 0⟩, ⟨0, 0, 0, 0⟩] hrel 1 le_rfl le_rfl 0 hjlen hge hlt
  rw [if_pos rfl] at h
  exact ⟨hrel, h⟩

/-- Claim C5: the haversine distance (with Earth radius exactly
6,371,000 m) is symmetric in its two points and vanishes on coincident
points — exactly, hence within any floating-point tolerance. -/
theorem haversine_symm_identity :
    (∀ lat1 lon1 lat2 lon2 : ℝ,
      haversine_distance lat1 lon1 lat2 lon2 = haversine_distance lat2 lon2 lat1 lon1) ∧
    (∀ lat lon : ℝ, haversine_distance lat lon lat lon = 0) := by
  constructor
  · intro lat1 lon1 lat2 lon2
    have key : ∀ x y : ℝ, Real.sin ((x - y) / 2) ^ 2 = Real.sin ((y - x) / 2) ^ 2 := by
      intro x y
      rw [show (x - y) / 2 = -((y - x) / 2) by ring, Real.sin_neg]
      ring
    unfold haversine_distance
    rw [key (lat2 * Real.pi / 180) (lat1 * Real.pi / 180),
      key (lon2 * Real.pi / 180) (lon1 * Real.pi / 180),
      mul_comm (Real.cos (lat1 * Real.pi / 180)) (Real.cos (lat2 * Real.pi / 180))]
  · exact haversine_self

/-- Counterexample to claim C6 as frozen: at `(d, m, s) = (0, 0, 3600)`
(a triple with `d ≥ 0`) the round trip returns `(1, 0, 0)`, which differs
from the input by far more than `1e-9` in the minutes/seconds components. -/
theorem dms_roundtrip_counterexample :
    ¬ (|((decimal_to_dms (dms_to_decimal (0 : ℚ) 0 3600)).1 : ℚ) - 0| ≤ 1 / 1000000000 ∧
       |((decimal_to_dms (dms_to_decimal (0 : ℚ) 0 3600)).2.1 : ℚ) - 0| ≤ 1 / 1000000000 ∧
       |(decimal_to_dms (dms_to_decimal (0 : ℚ) 0 3600)).2.2 - 3600| ≤ 1 / 1000000000) := by
  intro hcl
  have h1 : dms_to_decimal (0 : ℚ) 0 3600 = 1 := by
    unfold dms_to_decimal
    norm_num
  have h2 : decimal_to_dms (1 : ℚ) = (1, 0, 0) := by
    unfold decimal_to_dms pyTrunc
    norm_num
  rw [h1, h2] at hcl
  norm_num at hcl

/-- Claim C6 (amended): for a well-formed DMS triple — `d` a nonnegative
integer, `m` an integer with `0 ≤ m < 60`, and `0 ≤ s < 60` — the round
trip `decimal_to_dms (dms_to_decimal d m s)` reproduces `(d, m, s)`
exactly (hence within `1e-9` in each component). -/
theorem dms_roundtrip_amended {α : Type*} [LinearOrderedField α] [FloorRing α]
    (d m : ℤ) (s : α) (hd : 0 ≤ d) (hm : 0 ≤ m) (hm60 : m < 60)
    (hs : 0 ≤ s) (hs60 : s < 60) :
    decimal_to_dms (dms_to_decimal (d : α) (m : α) s) = (d, m, s) := by
  have hdc : (0 : α) ≤ (d : α) := by exact_mod_cast hd
  have hmc : (0 : α) ≤ (m : α) := by exact_mod_cast hm
  have hm59 : (m : α) ≤ 59 := by exact_mod_cast (by omega : m ≤ 59)
  have hf0 : (0 : α) ≤ (m : α) / 60 + s / 3600 := by positivity
  have hf1 : (m : α) / 60 + s / 3600 < 1 := by linarith
  have hg0 : (0 : α) ≤ s / 60 := by positivity
  have hg1 : s / 60 < 1 := by linarith
  unfold dms_to_decimal decimal_to_dms pyTrunc
  dsimp only
  have e1 : (d : α) + (m : α) / 60 + s / 3600 = ((m : α) / 60 + s / 3600) + (d : α) := by
    ring
  rw [e1, if_pos (by linarith), Int.floor_add_int,
    Int.floor_eq_zero_iff.2 ⟨hf0, hf1⟩]
  have e2 : ((m : α) / 60 + s / 3600 + (d : α) - ((0 + d : ℤ) : α)) * 60
      = s / 60 + (m : α) := by
    push_cast
    ring
  rw [e2, if_pos (by linarith), Int.floor_add_int,
    Int.floor_eq_zero_iff.2 ⟨hg0, hg1⟩]
  have e3 : (s / 60 + (m : α) - ((0 + m : ℤ) : α)) * 60 = s := by
    push_cast
    ring
  rw [e3]
  norm_num

/-- Witness for the amended claim C6 at `(d, m, s) = (12, 34, 56)`. -/
theorem dms_roundtrip_amended_witness :
    decimal_to_dms (dms_to_decimal ((12 : ℤ) : ℚ) ((34 : ℤ) : ℚ) 56) = (12, 34, 56) :=
  dms_roundtrip_amended 12 34 56 (by norm_num) (by norm_num) (by norm_num)
    (by norm_num) (by norm_num)

/-- Claim C7: for every timestamp on or after the epoch, converting to GPS
week/seconds-of-week and back reproduces the timestamp exactly in the
real/rational idealisation — in particular to within 1 ms. -/
theorem gps_time_roundtrip {α : Type*} [LinearOrderedField α] [FloorRing α]
    (epoch dt : α) (_h : epoch ≤ dt) :
    gps_to_datetime epoch (datetime_to_gps epoch dt).1 (datetime_to_gps epoch dt).2 = dt := by
  unfold gps_to_datetime datetime_to_gps
  dsimp only
  set days := ⌊(dt - epoch) / 86400⌋ with hdays
  have hid : 7 * Int.fdiv days 7 + Int.fmod days 7 = days := Int.fdiv_add_fmod days 7
  have hcast : 7 * ((Int.fdiv days 7 : ℤ) : α) + ((Int.fmod days 7 : ℤ) : α) = (days : α) := by
    exact_mod_cast congrArg (fun z : ℤ => (z : α)) hid
  nlinarith [hcast]

/-- Witness for claim C7 at `epoch = 0`,
`dt = 1234567.891 s` (over `ℚ`). -/
theorem gps_time_roundtrip_witness :
    (0 : ℚ) ≤ 1234567891 / 1000 ∧
      gps_to_datetime (0 : ℚ) (datetime_to_gps (0 : ℚ) (1234567891 / 1000)).1
        (datetime_to_gps (0 : ℚ) (1234567891 / 1000)).2 = 1234567891 / 1000 :=
  ⟨by norm_num, gps_time_roundtrip 0 (1234567891 / 1000) (by norm_num)⟩

/-- Counterexample to claim C8 as frozen: with a position log whose
content carries the decimal-format header, the exported rows are
decimal-format rows, not the event log's DMS rows — the export does not
follow the event log's format regardless of the position log. -/
theorem export_format_counterexample :
    format_for_events_export_formats (detectPositionFormat decimalHeaderPat)
      [⟨0, 0, 0, 0⟩] [] ≠ [EventLineFormat.dms] := by
  have hdet : detectPositionFormat decimalHeaderPat = PosFormat.decimal := by
    rfl
  rw [hdet]
  intro hcl
  have hval : format_for_events_export_formats PosFormat.decimal [⟨0, 0, 0, 0⟩] []
      = [EventLineFormat.decimal] := rfl
  rw [hval] at hcl
  simp at hcl

/-- Claim C8 (amended): the combined event output is serialised in the row
format detected for the position log (`exportTag` of the detection
result), and that format coincides with the event log's DMS format exactly
when the position log was detected as DMS. -/
theorem export_format_mirrors_position_log :
    (∀ content : String, ∀ events interpolated : List PosPoint,
      format_for_events_export_formats (detectPositionFormat content) events interpolated
        = (sortTriggers (events ++ interpolated)).map
            (fun _ => exportTag (detectPositionFormat content))) ∧
    (∀ fmt : PosFormat, exportTag fmt = eventLogLineFormat ↔ fmt = PosFormat.dms) := by
  constructor
  · intro content events interpolated
    unfold format_for_events_export_formats exportTag
    cases detectPositionFormat content <;> rfl
  · intro fmt
    cases fmt <;> simp [exportTag, eventLogLineFormat]

/-- Counterexample to claim C9 as frozen: loading a DMS-format position
file whose rows are out of time order (seconds 10 before seconds 5) yields
a sequence that is not non-decreasing in seconds — loading itself does not
sort. -/
theorem load_order_counterexample :
    ¬ List.Sorted (· ≤ ·)
      ((load_dms_format 0
        [{ week := 0, seconds := 10, lat_d := 0, lat_m := 0, lat_s := 0,
           lon_d := 0, lon_m := 0, lon_s := 0, height := 0 },
         { week := 0, seconds := 5, lat_d := 0, lat_m := 0, lat_s := 0,
           lon_d := 0, lon_m := 0, lon_s := 0, height := 0 }]).map PosSample.seconds) := by
  intro hs
  simp [load_dms_format, List.sorted_cons] at hs
  norm_num at hs

/-- Claim C9 (amended): the sequences actually used for distance/interval
computations are non-decreasing in seconds: the trigger sequence is sorted
at the start of `find_missing_triggers`, and the dense subsequence used
for cumulative distances is sorted inside
`interpolate_positions_by_distance`; the loaded position sequence itself
keeps file order. -/
theorem sorted_at_use_sites :
    (∀ events : List PosPoint,
      List.Sorted (· ≤ ·) ((sortTriggers events).map PosPoint.seconds)) ∧
    (∀ start_pos end_pos : PosPoint, ∀ pos_data : List PosPoint,
      List.Sorted (· ≤ ·)
        ((relevantPosData start_pos end_pos pos_data).map PosPoint.seconds)) := by
  have key : ∀ l : List PosPoint, List.Sorted bySeconds l →
      List.Sorted (· ≤ ·) (l.map PosPoint.seconds) := by
    intro l hl
    unfold List.Sorted at hl ⊢
    rw [List.pairwise_map]
    exact hl
  exact ⟨fun events => key _ (List.sorted_insertionSort bySeconds events),
    fun sp ep pos => key _ (List.sorted_insertionSort bySeconds _)⟩

/-- Claim C10: each boundary `b` with `W ≤ b ≤ n - 2` is inspected by
exactly one window (the one starting at `b - W`), and the boundaries of
the emitted gaps are pairwise distinct, so a boundary can never receive
two gap reports in one pass. -/
theorem detectGaps_unique_boundary {α : Type*} [LinearOrderedField α] [FloorRing α]
    (W : ℕ) (maxf : α) (ds : List α) :
    (∀ b : ℕ, W ≤ b → b < ds.length →
      ((windowIndices W ds).filter fun i => i + W == b).length = 1) ∧
    ((detectGaps W maxf ds).map Prod.fst).Nodup := by
  constructor
  · intro b hWb hblen
    unfold windowIndices
    rw [filter_range_boundary _ _ _ hWb, if_pos (by omega)]
    rfl
  · rw [detectGaps, List.map_filterMap]
    refine List.Nodup.filterMap ?_ ?_
    · intro a b c hca hcb
      have ha : a + W = c := by
        dsimp only at hca
        split_ifs at hca with hc1 hc2 hc3 <;> simp at hca
        exact hca
      have hb : b + W = c := by
        dsimp only at hcb
        split_ifs at hcb with hc1 hc2 hc3 <;> simp at hcb
        exact hcb
      omega
    · unfold windowIndices
      exact List.nodup_range _

end TriggerFix
